import Mathlib

/-!
Verification development for the FileMonitor repository (src/file_monitor.py).

The Python source is shallowly embedded as executable Lean definitions:

 - The date-header normalizer (`DateHeaderProcessor.shorten_date_prefix`,
   lines 241-275) is embedded over `List Char`.  The five compiled regular
   expressions (lines 88-92) are hand-compiled into deterministic matchers;
   Python's `\d` is modelled by ASCII digits (all digit positions the
   theorems quantify over are hypothesis-constrained to ASCII digits),
   `\s` by the exact 29-code-point whitespace class the `re` module
   matches on str patterns (including the ASCII information-separator
   controls 1C-1F and the Unicode whitespace code points), and `.`
   (no DOTALL) by "any character except a newline".  Greedy semantics of
   the concrete patterns reduce to span/takeWhile because in each pattern
   the starred class is followed by `(.*)`, which always matches.
 - The dedup ledger of `FileMonitorHandler` (the `processing_files` and
   `processed_files` sets, lines 680-729 and 771-807) is a small labelled
   transition system; each label is one lock-protected critical section of
   the source.
 - The readiness loop `_wait_for_file_ready` (lines 731-769) is folded
   over an explicit list of poll observations; the wall-clock budget is
   represented by the length of that list, and the fallback `return
   os.path.exists(filepath)` by an `existsAtExpiry` parameter.
 - `HWPXConverter.convert_hwp_to_hwpx` (lines 327-387) and the PDF queue
   worker `PDFConverterQueue._process_queue` (lines 487-557) are embedded
   with the operating-system and COM interactions (file existence, size
   probes, subprocess exceptions, the converter itself) as oracle inputs.
 - The rename stage of `FileMonitor.process_file` (lines 945-980) is
   embedded as a function from the rename outcome to the emitted log
   events and the statistics deltas.
-/

/-! ### Character classes of the date-header regular expressions -/

/-- Model of Python regex `\d` on the ASCII range: a decimal digit. -/
def isDig (c : Char) : Bool := c.isDigit

/-- The exact set of code points Python's `re` whitespace class `\s`
matches on str patterns: tab, line feed, vertical tab, form feed,
carriage return, the information-separator controls 1C-1F, space, next
line, no-break space, ogham space mark, the en/em space range 2000-200A,
line separator, paragraph separator, narrow no-break space, medium
mathematical space, and ideographic space. -/
def pySpaceChars : List Char :=
  ['\t', '\n', '\x0b', '\x0c', '\x0d', '\x1c', '\x1d', '\x1e', '\x1f',
   ' ', '\u0085', '\u00a0', '\u1680', '\u2000', '\u2001', '\u2002',
   '\u2003', '\u2004', '\u2005', '\u2006', '\u2007', '\u2008',
   '\u2009', '\u200a', '\u2028', '\u2029', '\u202f', '\u205f',
   '\u3000']

/-- Model of Python regex `\s` on str patterns. -/
def isPySpace (c : Char) : Bool := pySpaceChars.contains c

/-- The character class written as a bracket of whitespace, underscore and
hyphen in the source patterns (line 88 and the trailing-separator groups). -/
def isSepClass (c : Char) : Bool := isPySpace c || c = '_' || c = '-'

/-- The dotted-date separator class of the period patterns (lines 90-91):
period, hyphen or underscore. -/
def isPSep (c : Char) : Bool := c = '.' || c = '-' || c = '_'

/-- The exact strip set of the Python calls of the form
lstrip with space, tab, underscore and hyphen (lines 247, 256, 267, 272). -/
def isStripSet (c : Char) : Bool := c = ' ' || c = '\t' || c = '_' || c = '-'

/-- Model of the lstrip call on the captured remainder group. -/
def lstripCore (s : List Char) : List Char := s.dropWhile isStripSet

/-- Model of a trailing `(.*)` group without DOTALL: it captures every
character up to (excluding) the first newline. -/
def dotStar (s : List Char) : List Char := s.takeWhile (fun c => c != '\n')

/-- Consume exactly `n` leading digits, returning them and the remainder
(the compiled form of a `\d` repetition of fixed length). -/
def takeDigits : Nat → List Char → Option (List Char × List Char)
  | 0, s => some ([], s)
  | _ + 1, [] => none
  | n + 1, c :: t =>
    if isDig c then (takeDigits n t).map (fun r => (c :: r.1, r.2)) else none

/-! ### The five patterns of lines 88-92, hand-compiled

The trailing-separator groups are compiled as a maximal span of
`isSepClass` followed by `dotStar`: both subpatterns are greedy and the
final `(.*)` never fails, so no backtracking can occur. -/

/-- LONG_DATE: eight digits, then a separator run, then the rest. -/
def matchLong (s : List Char) : Option (List Char × List Char) :=
  match takeDigits 8 s with
  | some (d8, t) => some (d8, dotStar (t.dropWhile isSepClass))
  | none => none

/-- One dotted-date separator character. -/
def expectPSep : List Char → Option (Char × List Char)
  | c :: t => if isPSep c then some (c, t) else none
  | [] => none

/-- The backreference to the first separator: the same character again. -/
def expectSame (x : Char) : List Char → Option (List Char)
  | c :: t => if c = x then some t else none
  | [] => none

/-- PERIOD_DATE: four digits, sep, two digits, same sep, two digits,
separator run, rest. -/
def matchPeriod (s : List Char) :
    Option (List Char × List Char × List Char × List Char) :=
  match takeDigits 4 s with
  | none => none
  | some (y, t1) =>
    match expectPSep t1 with
    | none => none
    | some (p, t2) =>
      match takeDigits 2 t2 with
      | none => none
      | some (m, t3) =>
        match expectSame p t3 with
        | none => none
        | some t4 =>
          match takeDigits 2 t4 with
          | none => none
          | some (d, t5) => some (y, m, d, dotStar (t5.dropWhile isSepClass))

/-- SHORT_PERIOD_DATE: two digits, sep, two digits, same sep, two digits,
separator run, rest. -/
def matchShortPeriod (s : List Char) :
    Option (List Char × List Char × List Char × List Char) :=
  match takeDigits 2 s with
  | none => none
  | some (y, t1) =>
    match expectPSep t1 with
    | none => none
    | some (p, t2) =>
      match takeDigits 2 t2 with
      | none => none
      | some (m, t3) =>
        match expectSame p t3 with
        | none => none
        | some t4 =>
          match takeDigits 2 t4 with
          | none => none
          | some (d, t5) => some (y, m, d, dotStar (t5.dropWhile isSepClass))

/-- SIX_DIGIT: six digits, a nonempty separator run, rest. -/
def matchSix (s : List Char) : Option (List Char × List Char) :=
  match takeDigits 6 s with
  | none => none
  | some (d6, t) =>
    match t with
    | [] => none
    | c :: t2 =>
      if isSepClass c then some (d6, dotStar (t2.dropWhile isSepClass))
      else none

/-- Embedding of `DateHeaderProcessor.shorten_date_prefix` (lines 242-275):
the four patterns are tried in source order; each produces a six digit
token, one space, and the lstripped remainder group. -/
def shortenDateTag (s : List Char) : Option (List Char) :=
  match matchLong s with
  | some (d8, g3) => some (d8.drop 2 ++ ' ' :: lstripCore g3)
  | none =>
    match matchPeriod s with
    | some (y, m, d, g6) => some (y.drop 2 ++ m ++ d ++ ' ' :: lstripCore g6)
    | none =>
      match matchShortPeriod s with
      | some (y, m, d, g6) => some (y ++ m ++ d ++ ' ' :: lstripCore g6)
      | none =>
        match matchSix s with
        | some (d6, g3) => some (d6 ++ ' ' :: lstripCore g3)
        | none => none

/-- String-level wrapper of the normalizer. -/
def shortenStr (s : String) : Option String :=
  (shortenDateTag s.toList).map (fun l => String.mk l)

/-- EXISTING_PREFIX_PATTERN (line 88): six digits followed by one
whitespace/underscore/hyphen character. -/
def existingTagMatch : List Char → Bool
  | a :: b :: c :: d :: e :: f :: g :: _ =>
    isDig a && isDig b && isDig c && isDig d && isDig e && isDig f &&
      isSepClass g
  | _ => false

/-! ### The dedup ledger of FileMonitorHandler

`processing_files` and `processed_files` (lines 684-685) are two sets of
path strings.  Every mutation in the source happens inside a critical
section of `_files_lock`; each such critical section is one label of the
transition system below. -/

/-- The two path sets of the handler. -/
structure HState where
  processing : Finset String
  processed : Finset String

/-- One lock-protected critical section touching the two sets:

 - `tryMarkInFlight` is the atomic check-then-add of `_process_file`
   (lines 783-786): a no-op when the path is already in flight;
 - `markCompleted` is the add of lines 795-796 in `callback_wrapper`;
 - `clearInFlight` is the discard in the `finally` block (lines 801-802),
   also `_discard_processing` (lines 726-729);
 - `evictCompleted` is `_discard_processed` (lines 721-724), run by the
   `threading.Timer` scheduled at line 798. -/
inductive HEvent where
  | tryMarkInFlight (p : String)
  | markCompleted (p : String)
  | clearInFlight (p : String)
  | evictCompleted (p : String)

/-- Effect of one critical section on the two sets. -/
def hstep (s : HState) : HEvent → HState
  | HEvent.tryMarkInFlight p =>
    if p ∈ s.processing then s
    else { s with processing := insert p s.processing }
  | HEvent.markCompleted p => { s with processed := insert p s.processed }
  | HEvent.clearInFlight p => { s with processing := s.processing.erase p }
  | HEvent.evictCompleted p => { s with processed := s.processed.erase p }

/-- Run a sequence of critical sections from the empty initial state of
`__init__` (lines 684-685). -/
def hrun (tr : List HEvent) : HState :=
  tr.foldl hstep { processing := ∅, processed := ∅ }

/-- A state of the two sets the handler can actually be in. -/
def HReachable (s : HState) : Prop := ∃ tr, hrun tr = s

/-- The two sets have no common member. -/
def DisjointState (s : HState) : Prop := s.processing ∩ s.processed = ∅

instance (s : HState) : Decidable (DisjointState s) := by
  unfold DisjointState; infer_instance

/-! ### The dedup check `_should_process_file` (lines 688-719) -/

/-- TEMP_EXTENSIONS of `FileMonitorHandler` (line 678). -/
def TEMP_EXTENSIONS : List String := [".crdownload", ".tmp", ".part", ".download"]

/-- Environment of one `_should_process_file` call: the values returned by
`os.path.exists`, `os.path.basename`, `os.path.splitext(...)[1].lower()`
and the configured extension list. -/
structure FileCtx where
  pathExists : Bool
  filename : String
  ext : String
  extensions : List String

/-- The office lock-file check of line 696: the name starts with the
two-character marker. -/
def startsWithLockMarker : List Char → Bool
  | '~' :: '$' :: _ => true
  | _ => false

/-- Embedding of `_should_process_file`: the five unconditional filters in
source order, then the two set-membership checks under the lock. -/
def should_process_file (st : HState) (path : String) (c : FileCtx) : Bool :=
  if c.pathExists = false then false
  else if startsWithLockMarker c.filename.toList then false
  else if TEMP_EXTENSIONS.contains c.ext then false
  else if (c.extensions.contains c.ext) = false then false
  else if existingTagMatch c.filename.toList then false
  else if path ∈ st.processing then false
  else if path ∈ st.processed then false
  else true

/-! ### The timed completion schedule of one path

`callback_wrapper` (lines 790-802) marks the path completed when the
callback returns and clears the in-flight entry immediately afterwards;
line 798 starts a `threading.Timer` that evicts the completed entry
`PROCESSED_FILE_TIMEOUT` seconds later. -/

/-- PROCESSED_FILE_TIMEOUT = 30.0 (line 120), in seconds. -/
def PROCESSED_FILE_TIMEOUT : ℚ := 30

/-- The four timed ledger events of one successfully processed path:
in-flight marking at `tIn`, completion marking and in-flight clearing at
`tDone`, timer eviction `PROCESSED_FILE_TIMEOUT` after `tDone`. -/
def completionSchedule (p : String) (tIn tDone : ℚ) : List (ℚ × HEvent) :=
  [(tIn, HEvent.tryMarkInFlight p),
   (tDone, HEvent.markCompleted p),
   (tDone, HEvent.clearInFlight p),
   (tDone + PROCESSED_FILE_TIMEOUT, HEvent.evictCompleted p)]

/-- The ledger state at time `t`: all scheduled events at or before `t`
have fired. -/
def ledgerAt (p : String) (tIn tDone t : ℚ) : HState :=
  hrun (((completionSchedule p tIn tDone).filter
    (fun e => decide (e.1 ≤ t))).map (fun e => e.2))

/-! ### The readiness loop `_wait_for_file_ready` (lines 731-769)

One loop iteration makes one observation of the path; the observations a
run makes are listed explicitly, and the expiry of the wall-clock budget
`FILE_READY_TIMEOUT` (line 114) is the end of the list.  `existsAtExpiry`
is the value of the final `os.path.exists(filepath)` (line 769). -/

/-- One poll observation:

 - `absent`: `os.path.exists` false (line 738);
 - `sizeErr`: `os.path.getsize` raised (line 764);
 - `openFail`: size read, but the open-for-read raised (line 750);
 - `ok`: size read and the open succeeded. -/
inductive Poll where
  | absent
  | sizeErr
  | openFail (size : Nat)
  | ok (size : Nat)

/-- The loop state: `last_size` (initially -1) and `stable_count`. -/
structure WaitSt where
  last : Int
  stable : Nat

/-- FILE_STABLE_COUNT = 3 (line 117). -/
def FILE_STABLE_COUNT : Nat := 3

/-- Effect of one poll on the loop state, read off lines 738-766: only a
successful size-and-open observation touches `last_size`/`stable_count`;
every failure path is a bare sleep-and-continue. -/
def waitStepSt (st : WaitSt) : Poll → WaitSt
  | Poll.ok sz =>
    if (sz : Int) = st.last then { last := st.last, stable := st.stable + 1 }
    else { last := (sz : Int), stable := 0 }
  | _ => st

/-- The poll loop: on a successful same-size observation the incremented
counter is compared with FILE_STABLE_COUNT (lines 755-758); exhausting the
observation list falls back to `existsAtExpiry` (line 769). -/
def waitRun (existsAtExpiry : Bool) : WaitSt → List Poll → Bool
  | _, [] => existsAtExpiry
  | st, p :: rest =>
    match p with
    | Poll.ok sz =>
      if (sz : Int) = st.last ∧ st.stable + 1 ≥ FILE_STABLE_COUNT then true
      else waitRun existsAtExpiry (waitStepSt st (Poll.ok sz)) rest
    | q => waitRun existsAtExpiry (waitStepSt st q) rest

/-- Embedding of `_wait_for_file_ready`. -/
def wait_for_file_ready (polls : List Poll) (existsAtExpiry : Bool) : Bool :=
  waitRun existsAtExpiry { last := -1, stable := 0 } polls

/-! ### HWPXConverter.convert_hwp_to_hwpx (lines 327-387)

The converter subprocess and the filesystem are oracles: per retry index
`i` of the wait loop (lines 357-375) the oracle answers whether the
output path exists, whether the two `os.path.getsize` calls succeed, and
whether they returned the same size; `removeOk` is whether `os.remove`
of the source succeeds (line 367). -/

/-- Which exception, if any, escapes the `try` of lines 352-375 outside
the handled inner ones, matched against the `except` clauses of
lines 380-387. -/
inductive RunExc where
  | timeoutExpired
  | fileNotFound
  | osError (msg : String)
  | other (msg : String)

/-- Oracle environment of one `convert_hwp_to_hwpx` call.  `filename`,
`nameWoExt` and `hwpxPath` stand for `os.path.basename`,
`os.path.splitext(...)[0]` and the derived output path (lines 348-350). -/
structure HwpxEnv where
  filepath : String
  converter_path : String
  filename : String
  nameWoExt : String
  hwpxPath : String
  srcExists : Bool
  converterExists : Bool
  runExc : Option RunExc
  outExistsAt : Nat → Bool
  sizeOkAt : Nat → Bool
  sizeStableAt : Nat → Bool
  removeOk : Bool
  removeErr : String

/-- ASCII model of Python str.lower applied characterwise. -/
def toLowerAscii (l : List Char) : List Char := l.map Char.toLower

/-- The guard `filepath.lower().endswith('.hwp')` of line 341: the last
four characters, lowercased, are `.hwp`. -/
def endsWithDotHwp (s : List Char) : Bool :=
  match (toLowerAscii s).reverse with
  | c1 :: c2 :: c3 :: c4 :: _ => c1 = 'p' && c2 = 'w' && c3 = 'h' && c4 = '.'
  | _ => false

/-- MAX_HWPX_WAIT_RETRIES = 10 (line 102). -/
def MAX_HWPX_WAIT_RETRIES : Nat := 10

/-- The wait loop of lines 357-375: at each retry, if the output exists,
its size is read twice; a stable size triggers `os.remove` of the source,
whose failure returns immediately with the cleanup-failure message
(line 370).  A missing output, a size error or an unstable size falls
through to the next retry; exhausting the retries returns the
conversion-failed message (line 378). -/
def hwpxWaitLoop (env : HwpxEnv) : Nat → Nat → Bool × String
  | 0, _ =>
    (false, "변환 실패: HWPX 파일이 생성되지 않았습니다 (" ++ env.hwpxPath ++ ")")
  | fuel + 1, i =>
    if env.outExistsAt i then
      if env.sizeOkAt i then
        if env.sizeStableAt i then
          if env.removeOk then
            (true, env.filename ++ " → " ++ env.nameWoExt ++ ".hwpx")
          else
            (false, "원본 파일 삭제 실패 (" ++ env.filepath ++ "): " ++ env.removeErr)
        else hwpxWaitLoop env fuel (i + 1)
      else hwpxWaitLoop env fuel (i + 1)
    else hwpxWaitLoop env fuel (i + 1)

/-- Embedding of `convert_hwp_to_hwpx`: the three guard clauses of
lines 338-346, then the `try` body with its `except` clauses. -/
def convert_hwp_to_hwpx (env : HwpxEnv) : Bool × String :=
  if env.srcExists = false then
    (false, "파일을 찾을 수 없습니다: " ++ env.filepath)
  else if (endsWithDotHwp env.filepath.toList) = false then
    (false, "HWP 파일이 아닙니다: " ++ env.filepath)
  else if env.converterExists = false then
    (false, "HWPX 변환기를 찾을 수 없습니다: " ++ env.converter_path)
  else
    match env.runExc with
    | some RunExc.timeoutExpired => (false, "변환 시간 초과: " ++ env.filepath)
    | some RunExc.fileNotFound =>
      (false, "변환기 실행 파일을 찾을 수 없습니다: " ++ env.converter_path)
    | some (RunExc.osError m) => (false, "파일 시스템 오류: " ++ m)
    | some (RunExc.other m) =>
      (false, "예상치 못한 변환 오류 (" ++ env.filepath ++ "): " ++ m)
    | none => hwpxWaitLoop env MAX_HWPX_WAIT_RETRIES 0

/-! ### PDFConverterQueue._process_queue (lines 487-557)

The single consumer pops jobs in FIFO order.  The jobs present in the
queue are the list argument; `convertResult` is the oracle for
`PDFConverter.convert_hwp_to_pdf` (line 515).  Per popped job the worker
reports exactly one stats event: the string passed to `stats_callback`
("failed" on the unavailable short-circuit of lines 505-511, otherwise
"success"/"failed" from the conversion result, lines 520-532).  The
second component collects the jobs for which the conversion (backend
acquisition) was actually attempted. -/

/-- One queued tuple as put by `add_task` (line 412). -/
structure PdfJob where
  filepath : String
  output_dir : Option String
  filename : String

/-- Drain of the queue by the single worker with the one-time probe
result `hwp_available` (set once at line 493). -/
def process_queue_drain (hwp_available : Bool)
    (convertResult : PdfJob → Bool × String) :
    List PdfJob → List (PdfJob × String) × List PdfJob
  | [] => ([], [])
  | j :: rest =>
    if hwp_available = false then
      let r := process_queue_drain hwp_available convertResult rest
      ((j, "failed") :: r.1, r.2)
    else
      let res := convertResult j
      let r := process_queue_drain hwp_available convertResult rest
      ((j, if res.1 then "success" else "failed") :: r.1, j :: r.2)

/-! ### The rename stage of FileMonitor.process_file (lines 956-980)

`DateHeaderProcessor.rename_file_with_date` returns a pair: a new name,
or an error message, or it raises.  The stage emits log events (message,
severity) and increments the success/failed counters of `self.stats`. -/

/-- The soft no-op message of line 309, checked by substring at line 961. -/
def dateHeaderAlreadyMsg : String := "이미 날짜 접두사가 있습니다"

/-- One list is a leading piece of another. -/
def listStartsWith : List Char → List Char → Bool
  | [], _ => true
  | _ :: _, [] => false
  | p :: ps, c :: cs => p = c && listStartsWith ps cs

/-- The pattern occurs somewhere in the text. -/
def containsSeq (pat : List Char) : List Char → Bool
  | [] => listStartsWith pat []
  | c :: cs => listStartsWith pat (c :: cs) || containsSeq pat cs

/-- Python's substring test `pat in s`. -/
def containsSub (s pat : String) : Bool := containsSeq pat.toList s.toList

/-- Outcome of the `rename_file_with_date` call at line 958. -/
inductive RenameResult where
  | renamed (newName : String)
  | failed (err : String)
  | raised (msg : String)

/-- Embedding of lines 957-980: the emitted (message, severity) log events
and the (success, failed) counter deltas.  A returned error is silently
ignored when it contains the already-tagged message, otherwise logged as
a warning; only a raised exception increments the failed counter. -/
def renameStageLogsStats (filename : String) :
    RenameResult → List (String × String) × Nat × Nat
  | RenameResult.failed err =>
    if containsSub err dateHeaderAlreadyMsg then ([], 0, 0)
    else ([("날짜 헤더 추가 실패 (" ++ filename ++ "): " ++ err, "warning")], 0, 0)
  | RenameResult.renamed newName =>
    ([("날짜 헤더 추가 완료: " ++ filename ++ " → " ++ newName, "success")], 1, 0)
  | RenameResult.raised msg =>
    ([("날짜 헤더 추가 오류 (" ++ filename ++ "): " ++ msg, "error")], 0, 1)

/-- ALLOWED_EXTENSIONS (lines 94-95). -/
def ALLOWED_EXTENSIONS : List String :=
  [".pdf", ".hwp", ".hwpx", ".hwpm", ".doc", ".docx",
   ".ppt", ".pptx", ".xls", ".xlsx", ".txt", ".zip"]

/-- The permanent-per-item early returns of `rename_file_with_date`
(lines 296-301): not a regular file, or an extension outside the
allow-list.  Returns the error message of the corresponding `return`. -/
def rename_file_with_date_check (isFile : Bool) (ext : String) :
    Option String :=
  if isFile = false then some "파일이 아닙니다"
  else if (ALLOWED_EXTENSIONS.contains ext) = false then
    some ("지원하지 않는 확장자: " ++ ext)
  else none

/-- The per-item loop of `process_existing_files` (lines 934-936) /
independent watcher workers: each item's rename stage runs on its own
outcome. -/
def renameStageBatch (items : List (String × RenameResult)) :
    List (List (String × String) × Nat × Nat) :=
  items.map (fun it => renameStageLogsStats it.1 it.2)

/-! ### Facts about the normalizer machinery -/

/-- The remainder group never starts with a separator-class character. -/
def headNotSep : List Char → Bool
  | [] => true
  | c :: _ => !(isSepClass c)

/-- The remainder group never contains a newline. -/
def noNewline (l : List Char) : Bool := l.all (fun c => c != '\n')

/-- Invariant of every remainder the normalizer emits. -/
def goodTail (l : List Char) : Bool := headNotSep l && noNewline l

theorem takeDigits_sound :
    ∀ (n : Nat) (s d t : List Char), takeDigits n s = some (d, t) →
      d.length = n ∧ d.all isDig = true ∧ s = d ++ t := by
  intro n
  induction n with
  | zero =>
    intro s d t h
    simp [takeDigits] at h
    obtain ⟨h1, h2⟩ := h
    subst h1
    subst h2
    simp
  | succ n ih =>
    intro s d t h
    cases s with
    | nil => simp [takeDigits] at h
    | cons c cs =>
      rw [takeDigits] at h
      by_cases hc : isDig c
      · rw [if_pos hc] at h
        cases hr : takeDigits n cs with
        | none => rw [hr] at h; simp at h
        | some r =>
          obtain ⟨d0, t0⟩ := r
          rw [hr] at h
          simp only [Option.map_some'] at h
          obtain ⟨h1, h2⟩ := Prod.mk.injEq .. ▸ Option.some.inj h
          obtain ⟨hl, ha, hs⟩ := ih cs d0 t0 hr
          subst h2
          rw [← h1]
          refine ⟨by simp [hl], by simp [List.all_cons, hc, ha], by simp [hs]⟩
      · rw [if_neg hc] at h
        simp at h

theorem takeDigits_complete (d : List Char) :
    ∀ (n : Nat) (t : List Char), d.length = n → d.all isDig = true →
      takeDigits n (d ++ t) = some (d, t) := by
  induction d with
  | nil =>
    intro n t hn _
    simp at hn
    subst hn
    simp [takeDigits]
  | cons c cs ih =>
    intro n t hn hall
    simp only [List.length_cons] at hn
    subst hn
    simp only [List.all_cons, Bool.and_eq_true] at hall
    rw [List.cons_append, takeDigits, if_pos hall.1, ih cs.length t rfl hall.2]
    rfl

theorem takeDigits_stops (d : List Char) :
    ∀ (n : Nat) (c : Char) (t : List Char), d.length < n →
      d.all isDig = true → isDig c = false →
      takeDigits n (d ++ c :: t) = none := by
  induction d with
  | nil =>
    intro n c t hn _ hc
    cases n with
    | zero => omega
    | succ m => simp [takeDigits, hc]
  | cons a cs ih =>
    intro n c t hn hall hc
    cases n with
    | zero => omega
    | succ m =>
      simp only [List.all_cons, Bool.and_eq_true] at hall
      rw [List.cons_append, takeDigits, if_pos hall.1,
        ih m c t (by simp at hn; omega) hall.2 hc]
      rfl

theorem digit_not_psep (c : Char) (h : isDig c = true) : isPSep c = false := by
  cases hp : isPSep c
  · rfl
  · exfalso
    simp only [isPSep, Bool.or_eq_true, decide_eq_true_eq] at hp
    rcases hp with (h1 | h1) | h1 <;> subst h1 <;> exact absurd h (by decide)

theorem strip_subset_sep (c : Char) (h : isStripSet c = true) :
    isSepClass c = true := by
  simp only [isStripSet, Bool.or_eq_true, decide_eq_true_eq] at h
  rcases h with ((h1 | h1) | h1) | h1 <;> subst h1 <;> decide

theorem headNotSep_dropWhile (l : List Char) :
    headNotSep (l.dropWhile isSepClass) = true := by
  induction l with
  | nil => rfl
  | cons c t ih =>
    cases hc : isSepClass c
    · simp [List.dropWhile_cons, hc, headNotSep]
    · simp [List.dropWhile_cons, hc, ih]

theorem headNotSep_dotStar (l : List Char) (h : headNotSep l = true) :
    headNotSep (dotStar l) = true := by
  cases l with
  | nil => rfl
  | cons c t =>
    have hc : isSepClass c = false := by
      simpa [headNotSep] using h
    have hne : c ≠ '\n' := by
      intro he
      subst he
      exact absurd hc (by decide)
    simp [dotStar, List.takeWhile_cons, hne, headNotSep, hc]

theorem noNewline_dotStar (l : List Char) : noNewline (dotStar l) = true := by
  induction l with
  | nil => rfl
  | cons c t ih =>
    by_cases hb : c = '\n'
    · simp [dotStar, List.takeWhile_cons, hb, noNewline]
    · simp only [dotStar, noNewline] at ih ⊢
      simp [List.takeWhile_cons, hb, List.all_cons, ih]

theorem dropWhile_of_headNotSep (l : List Char) (h : headNotSep l = true) :
    l.dropWhile isSepClass = l := by
  cases l with
  | nil => rfl
  | cons c t =>
    have hc : isSepClass c = false := by simpa [headNotSep] using h
    simp [List.dropWhile_cons, hc]

theorem lstripCore_of_headNotSep (l : List Char) (h : headNotSep l = true) :
    lstripCore l = l := by
  cases l with
  | nil => rfl
  | cons c t =>
    have hc : isSepClass c = false := by simpa [headNotSep] using h
    have hs : isStripSet c = false := by
      cases hq : isStripSet c
      · rfl
      · exact absurd (strip_subset_sep c hq) (by simp [hc])
    simp [lstripCore, List.dropWhile_cons, hs]

theorem dotStar_of_noNewline (l : List Char) (h : noNewline l = true) :
    dotStar l = l := by
  induction l with
  | nil => rfl
  | cons c t ih =>
    simp only [noNewline, List.all_cons, Bool.and_eq_true] at h
    have h2 : dotStar t = t := ih (by simpa [noNewline] using h.2)
    unfold dotStar
    rw [List.takeWhile_cons, if_pos h.1]
    unfold dotStar at h2
    rw [h2]

theorem goodTail_canon (t : List Char) :
    goodTail (lstripCore (dotStar (t.dropWhile isSepClass))) = true := by
  have h1 := headNotSep_dropWhile t
  have h2 := headNotSep_dotStar _ h1
  rw [lstripCore_of_headNotSep _ h2]
  simp [goodTail, h2, noNewline_dotStar]

theorem all_isDig_drop (d : List Char) (k : Nat) (h : d.all isDig = true) :
    (d.drop k).all isDig = true := by
  rw [List.all_eq_true] at h ⊢
  exact fun c hc => h c (List.drop_subset k d hc)

/-- The remainders the four matchers emit all have the canonical form
`dotStar` of a `dropWhile isSepClass`. -/
def CanonTail (g : List Char) : Prop :=
  ∃ t : List Char, g = dotStar (List.dropWhile isSepClass t)

theorem goodTail_of_canonTail (g : List Char) (h : CanonTail g) :
    goodTail (lstripCore g) = true := by
  obtain ⟨t, ht⟩ := h
  rw [ht]
  exact goodTail_canon t

theorem matchLong_sound (s d8 g3 : List Char)
    (h : matchLong s = some (d8, g3)) :
    d8.length = 8 ∧ d8.all isDig = true ∧ CanonTail g3 := by
  unfold matchLong at h
  split at h
  · next d t ht =>
    simp only [Option.some.injEq, Prod.mk.injEq] at h
    obtain ⟨hl, ha, _⟩ := takeDigits_sound 8 s d t ht
    exact ⟨h.1 ▸ hl, h.1 ▸ ha, t, h.2.symm⟩
  · simp at h

theorem matchPeriod_sound (s : List Char) (y m d g6 : List Char)
    (h : matchPeriod s = some (y, m, d, g6)) :
    y.length = 4 ∧ y.all isDig = true ∧
      m.length = 2 ∧ m.all isDig = true ∧
      d.length = 2 ∧ d.all isDig = true ∧ CanonTail g6 := by
  unfold matchPeriod at h
  split at h
  · simp at h
  · next y0 t1 h1 =>
    split at h
    · simp at h
    · next p t2 h2 =>
      split at h
      · simp at h
      · next m0 t3 h3 =>
        split at h
        · simp at h
        · next t4 h4 =>
          split at h
          · simp at h
          · next d0 t5 h5 =>
            simp only [Option.some.injEq, Prod.mk.injEq] at h
            obtain ⟨hy, hm, hd, hg⟩ := h
            obtain ⟨hy1, hy2, _⟩ := takeDigits_sound 4 s y0 t1 h1
            obtain ⟨hm1, hm2, _⟩ := takeDigits_sound 2 t2 m0 t3 h3
            obtain ⟨hd1, hd2, _⟩ := takeDigits_sound 2 t4 d0 t5 h5
            exact ⟨hy ▸ hy1, hy ▸ hy2, hm ▸ hm1, hm ▸ hm2,
              hd ▸ hd1, hd ▸ hd2, t5, hg.symm⟩

theorem matchShortPeriod_sound (s : List Char) (y m d g6 : List Char)
    (h : matchShortPeriod s = some (y, m, d, g6)) :
    y.length = 2 ∧ y.all isDig = true ∧
      m.length = 2 ∧ m.all isDig = true ∧
      d.length = 2 ∧ d.all isDig = true ∧ CanonTail g6 := by
  unfold matchShortPeriod at h
  split at h
  · simp at h
  · next y0 t1 h1 =>
    split at h
    · simp at h
    · next p t2 h2 =>
      split at h
      · simp at h
      · next m0 t3 h3 =>
        split at h
        · simp at h
        · next t4 h4 =>
          split at h
          · simp at h
          · next d0 t5 h5 =>
            simp only [Option.some.injEq, Prod.mk.injEq] at h
            obtain ⟨hy, hm, hd, hg⟩ := h
            obtain ⟨hy1, hy2, _⟩ := takeDigits_sound 2 s y0 t1 h1
            obtain ⟨hm1, hm2, _⟩ := takeDigits_sound 2 t2 m0 t3 h3
            obtain ⟨hd1, hd2, _⟩ := takeDigits_sound 2 t4 d0 t5 h5
            exact ⟨hy ▸ hy1, hy ▸ hy2, hm ▸ hm1, hm ▸ hm2,
              hd ▸ hd1, hd ▸ hd2, t5, hg.symm⟩

theorem matchSix_sound (s d6 g3 : List Char)
    (h : matchSix s = some (d6, g3)) :
    d6.length = 6 ∧ d6.all isDig = true ∧ CanonTail g3 := by
  unfold matchSix at h
  split at h
  · simp at h
  · next d0 t h1 =>
    split at h
    · simp at h
    · next c t2 =>
      split at h
      · next hc =>
        simp only [Option.some.injEq, Prod.mk.injEq] at h
        obtain ⟨hd, hg⟩ := h
        obtain ⟨hl, ha, _⟩ := takeDigits_sound 6 s d0 (c :: t2) h1
        exact ⟨hd ▸ hl, hd ▸ ha, t2, hg.symm⟩
      · simp at h

theorem shortenDateTag_shape (f g : List Char)
    (h : shortenDateTag f = some g) :
    ∃ d r, d.length = 6 ∧ d.all isDig = true ∧ goodTail r = true ∧
      g = d ++ ' ' :: r := by
  unfold shortenDateTag at h
  split at h
  · next d8 g3 hL =>
    simp only [Option.some.injEq] at h
    obtain ⟨hl, ha, hc⟩ := matchLong_sound f d8 g3 hL
    exact ⟨d8.drop 2, lstripCore g3, by simp [hl], all_isDig_drop d8 2 ha,
      goodTail_of_canonTail g3 hc, h.symm⟩
  · split at h
    · next y m d g6 hP =>
      simp only [Option.some.injEq] at h
      obtain ⟨hy1, hy2, hm1, hm2, hd1, hd2, hc⟩ :=
        matchPeriod_sound f y m d g6 hP
      refine ⟨y.drop 2 ++ m ++ d, lstripCore g6,
        by simp [hy1, hm1, hd1], ?_, goodTail_of_canonTail g6 hc,
        by rw [← h]⟩
      simp only [List.all_append, Bool.and_eq_true]
      exact ⟨⟨all_isDig_drop y 2 hy2, hm2⟩, hd2⟩
    · split at h
      · next y m d g6 hS =>
        simp only [Option.some.injEq] at h
        obtain ⟨hy1, hy2, hm1, hm2, hd1, hd2, hc⟩ :=
          matchShortPeriod_sound f y m d g6 hS
        refine ⟨y ++ m ++ d, lstripCore g6,
          by simp [hy1, hm1, hd1], ?_, goodTail_of_canonTail g6 hc,
          by rw [← h]⟩
        simp only [List.all_append, Bool.and_eq_true]
        exact ⟨⟨hy2, hm2⟩, hd2⟩
      · split at h
        · next d6 g3 hX =>
          simp only [Option.some.injEq] at h
          obtain ⟨hl, ha, hc⟩ := matchSix_sound f d6 g3 hX
          exact ⟨d6, lstripCore g3, hl, ha,
            goodTail_of_canonTail g3 hc, h.symm⟩
        · simp at h

theorem exists_six (d : List Char) (h : d.length = 6) :
    ∃ c1 c2 c3 c4 c5 c6 : Char, d = [c1, c2, c3, c4, c5, c6] := by
  rcases d with _ | ⟨c1, d⟩
  · simp at h
  rcases d with _ | ⟨c2, d⟩
  · simp at h
  rcases d with _ | ⟨c3, d⟩
  · simp at h
  rcases d with _ | ⟨c4, d⟩
  · simp at h
  rcases d with _ | ⟨c5, d⟩
  · simp at h
  rcases d with _ | ⟨c6, d⟩
  · simp at h
  rcases d with _ | ⟨c7, d⟩
  · exact ⟨c1, c2, c3, c4, c5, c6, rfl⟩
  · simp only [List.length_cons] at h
    omega

theorem shortenDateTag_canonical (d r : List Char) (h6 : d.length = 6)
    (hd : d.all isDig = true) (hr : goodTail r = true) :
    shortenDateTag (d ++ ' ' :: r) = some (d ++ ' ' :: r) := by
  obtain ⟨hns, hnl⟩ : headNotSep r = true ∧ noNewline r = true := by
    simpa [goodTail, Bool.and_eq_true] using hr
  obtain ⟨c1, c2, c3, c4, c5, c6, rfl⟩ := exists_six d h6
  simp only [List.all_cons, List.all_nil, Bool.and_eq_true, and_true] at hd
  obtain ⟨h1, h2, h3, h4, h5, h6d⟩ := hd
  simp only [List.cons_append, List.nil_append]
  have eLong :
      takeDigits 8 (c1 :: c2 :: c3 :: c4 :: c5 :: c6 :: ' ' :: r) = none := by
    have e := takeDigits_stops [c1, c2, c3, c4, c5, c6] 8 ' ' r (by simp)
      (by simp [h1, h2, h3, h4, h5, h6d]) (by decide)
    simpa only [List.cons_append, List.nil_append] using e
  have e4 : takeDigits 4 (c1 :: c2 :: c3 :: c4 :: c5 :: c6 :: ' ' :: r)
      = some ([c1, c2, c3, c4], c5 :: c6 :: ' ' :: r) := by
    have e := takeDigits_complete [c1, c2, c3, c4] 4 (c5 :: c6 :: ' ' :: r)
      (by simp) (by simp [h1, h2, h3, h4])
    simpa only [List.cons_append, List.nil_append] using e
  have ep4 : expectPSep (c5 :: c6 :: ' ' :: r) = none := by
    simp [expectPSep, digit_not_psep c5 h5]
  have e2 : takeDigits 2 (c1 :: c2 :: c3 :: c4 :: c5 :: c6 :: ' ' :: r)
      = some ([c1, c2], c3 :: c4 :: c5 :: c6 :: ' ' :: r) := by
    have e := takeDigits_complete [c1, c2] 2 (c3 :: c4 :: c5 :: c6 :: ' ' :: r)
      (by simp) (by simp [h1, h2])
    simpa only [List.cons_append, List.nil_append] using e
  have ep2 : expectPSep (c3 :: c4 :: c5 :: c6 :: ' ' :: r) = none := by
    simp [expectPSep, digit_not_psep c3 h3]
  have e6 : takeDigits 6 (c1 :: c2 :: c3 :: c4 :: c5 :: c6 :: ' ' :: r)
      = some ([c1, c2, c3, c4, c5, c6], ' ' :: r) := by
    have e := takeDigits_complete [c1, c2, c3, c4, c5, c6] 6 (' ' :: r)
      (by simp) (by simp [h1, h2, h3, h4, h5, h6d])
    simpa only [List.cons_append, List.nil_append] using e
  have edrop : List.dropWhile isSepClass r = r := dropWhile_of_headNotSep r hns
  have edot : dotStar r = r := dotStar_of_noNewline r hnl
  have estrip : lstripCore r = r := lstripCore_of_headNotSep r hns
  have esp : isSepClass ' ' = true := by decide
  simp only [shortenDateTag, matchLong, matchPeriod, matchShortPeriod,
    matchSix, eLong, e4, ep4, e2, ep2, e6, esp, edrop, edot, estrip,
    if_true, List.cons_append, List.nil_append]

/-- C8: for every filename on which the normalizer
`DateHeaderProcessor.shorten_date_prefix` fires, running it again on its
own output returns that output unchanged: the new-name computation is
idempotent on names carrying a supported date-style head. -/
theorem normalizer_idempotent_on_tagged (f g : String)
    (h : shortenStr f = some g) : shortenStr g = some g := by
  unfold shortenStr at h ⊢
  cases hf : shortenDateTag f.toList with
  | none => rw [hf] at h; simp at h
  | some l =>
    rw [hf] at h
    simp only [Option.map_some', Option.some.injEq] at h
    obtain ⟨d, r, h6, hd, hr, hl⟩ := shortenDateTag_shape f.toList l hf
    have hgl : g.toList = l := by
      rw [← h]
      rfl
    rw [hgl, hl, shortenDateTag_canonical d r h6 hd hr]
    simp only [Option.map_some', Option.some.injEq]
    rw [← h, hl]

/-- Witness for C8 at the spec example `2024-01-31_Report.docx`. -/
theorem normalizer_idempotent_on_tagged_witness :
    shortenStr "240131 Report.docx" = some "240131 Report.docx" :=
  normalizer_idempotent_on_tagged "2024-01-31_Report.docx"
    "240131 Report.docx" (by decide)

theorem dropWhile_sep_append (seps rest : List Char)
    (ha : seps.all isSepClass = true) (hr : headNotSep rest = true) :
    List.dropWhile isSepClass (seps ++ rest) = rest := by
  induction seps with
  | nil => simpa using dropWhile_of_headNotSep rest hr
  | cons c t ih =>
    simp only [List.all_cons, Bool.and_eq_true] at ha
    simp [List.cons_append, List.dropWhile_cons, ha.1, ih ha.2]

theorem expectPSep_pos (c : Char) (t : List Char) (h : isPSep c = true) :
    expectPSep (c :: t) = some (c, t) := by
  simp [expectPSep, h]

theorem expectSame_same (x : Char) (t : List Char) :
    expectSame x (x :: t) = some t := by
  simp [expectSame]

/-- C9 (amended): a filename of the form `YYYY<sep>MM<sep>DD<seps>rest`
with the same separator repeated, a trailing run over the pattern's full
whitespace/underscore/hyphen class, and a remainder that starts outside
that class and contains no newline is normalized to `YYMMDD rest` with
exactly one ASCII space before the remainder, for every separator style.
(The amendment: the remainder must contain no newline — the trailing
`(.*)` group of PERIOD_DATE_PREFIX_PATTERN stops at a newline, so
everything after a newline is dropped, see the counterexample.) -/
theorem period_form_normalized (y1 y2 y3 y4 m1 m2 d1 d2 sep : Char)
    (seps rest : List Char)
    (hy1 : isDig y1 = true) (hy2 : isDig y2 = true)
    (hy3 : isDig y3 = true) (hy4 : isDig y4 = true)
    (hm1 : isDig m1 = true) (hm2 : isDig m2 = true)
    (hd1 : isDig d1 = true) (hd2 : isDig d2 = true)
    (hsep : sep = '-' ∨ sep = '.' ∨ sep = '_')
    (hseps : seps.all isSepClass = true)
    (hrest1 : headNotSep rest = true)
    (hrest2 : noNewline rest = true) :
    shortenDateTag (y1 :: y2 :: y3 :: y4 :: sep :: m1 :: m2 :: sep ::
        d1 :: d2 :: (seps ++ rest))
      = some (y3 :: y4 :: m1 :: m2 :: d1 :: d2 :: ' ' :: rest) := by
  have hsd : isDig sep = false := by
    rcases hsep with h | h | h <;> subst h <;> decide
  have hsp : isPSep sep = true := by
    rcases hsep with h | h | h <;> subst h <;> decide
  have eLong : takeDigits 8 (y1 :: y2 :: y3 :: y4 :: sep :: m1 :: m2 ::
      sep :: d1 :: d2 :: (seps ++ rest)) = none := by
    have e := takeDigits_stops [y1, y2, y3, y4] 8 sep
      (m1 :: m2 :: sep :: d1 :: d2 :: (seps ++ rest)) (by simp)
      (by simp [hy1, hy2, hy3, hy4]) hsd
    simpa only [List.cons_append, List.nil_append] using e
  have e4 : takeDigits 4 (y1 :: y2 :: y3 :: y4 :: sep :: m1 :: m2 ::
      sep :: d1 :: d2 :: (seps ++ rest))
      = some ([y1, y2, y3, y4],
          sep :: m1 :: m2 :: sep :: d1 :: d2 :: (seps ++ rest)) := by
    have e := takeDigits_complete [y1, y2, y3, y4] 4
      (sep :: m1 :: m2 :: sep :: d1 :: d2 :: (seps ++ rest))
      (by simp) (by simp [hy1, hy2, hy3, hy4])
    simpa only [List.cons_append, List.nil_append] using e
  have em : takeDigits 2 (m1 :: m2 :: sep :: d1 :: d2 :: (seps ++ rest))
      = some ([m1, m2], sep :: d1 :: d2 :: (seps ++ rest)) := by
    have e := takeDigits_complete [m1, m2] 2
      (sep :: d1 :: d2 :: (seps ++ rest)) (by simp) (by simp [hm1, hm2])
    simpa only [List.cons_append, List.nil_append] using e
  have ed : takeDigits 2 (d1 :: d2 :: (seps ++ rest))
      = some ([d1, d2], seps ++ rest) := by
    have e := takeDigits_complete [d1, d2] 2 (seps ++ rest)
      (by simp) (by simp [hd1, hd2])
    simpa only [List.cons_append, List.nil_append] using e
  have edrop : List.dropWhile isSepClass (seps ++ rest) = rest :=
    dropWhile_sep_append seps rest hseps hrest1
  have edot : dotStar rest = rest := dotStar_of_noNewline rest hrest2
  have estrip : lstripCore rest = rest := lstripCore_of_headNotSep rest hrest1
  simp only [shortenDateTag, matchLong, matchPeriod, eLong, e4,
    expectPSep_pos sep _ hsp, em, expectSame_same, ed, edrop, edot, estrip,
    List.cons_append, List.nil_append, List.drop]

/-- C9 counterexample: the claim predicts that
`2024-01-31 a<newline>b` normalizes to `240131 a<newline>b` (the result
`YYMMDD rest`); the code instead drops everything from the newline on,
because the trailing `(.*)` of the pattern does not match a newline. -/
theorem period_form_newline_cex :
    shortenStr "2024-01-31 a\nb" = some "240131 a" ∧
      some "240131 a" ≠ some "240131 a\nb" :=
  ⟨by decide, by decide⟩

/-- Witness for C9 at the spec example `2024-01-31_Report.docx`, giving
`240131 Report.docx`. -/
theorem period_form_normalized_witness :
    shortenDateTag ('2' :: '0' :: '2' :: '4' :: '-' :: '0' :: '1' :: '-' ::
        '3' :: '1' :: (['_'] ++ "Report.docx".toList))
      = some ('2' :: '4' :: '0' :: '1' :: '3' :: '1' :: ' ' ::
          "Report.docx".toList) :=
  period_form_normalized '2' '0' '2' '4' '0' '1' '3' '1' '-' ['_']
    "Report.docx".toList (by decide) (by decide) (by decide) (by decide)
    (by decide) (by decide) (by decide) (by decide) (Or.inl rfl)
    (by decide) (by decide) (by decide)

/-- C10 (amended): for every name whose first eight characters are ASCII
digits, `shorten_date_prefix` applies the century-drop rule with no
calendar validation: the result is the digits from index 2 to 8, one
space, and the remainder after the eight digits with its leading run of
the pattern's whitespace/underscore/hyphen class removed — every code
point the regex `\s` matches (ASCII whitespace including the
information-separator controls 1C-1F, plus the Unicode whitespace code
points) together with underscore and hyphen — truncated at the first
newline.  (The amendment: the stripped leading run is the full `[\s_-]*`
class of LONG_DATE_PREFIX_PATTERN rather than only
space/tab/underscore/hyphen, and the captured remainder stops at a
newline — see the counterexample.) -/
theorem eight_digit_run_shortened (d8 t : List Char) (h8 : d8.length = 8)
    (hd : d8.all isDig = true) :
    shortenDateTag (d8 ++ t)
      = some (d8.drop 2 ++ ' ' ::
          lstripCore (dotStar (List.dropWhile isSepClass t))) := by
  have e := takeDigits_complete d8 8 t h8 hd
  simp only [shortenDateTag, matchLong, e]

/-- C10 counterexample: on `99999999<VT>Z` (vertical tab after the eight
digits) the claim predicts `999999 <VT>Z`, because lstrip with the set
space/tab/underscore/hyphen does not remove a vertical tab; the code
consumes the vertical tab in the `[\s_-]*` group and returns
`999999 Z`. -/
theorem eight_digit_strip_cex :
    shortenStr "99999999\x0bZ" = some "999999 Z" ∧
      lstripCore ("\x0bZ".toList) = "\x0bZ".toList ∧
      some "999999 Z" ≠ some ("999999 " ++ "\x0bZ") :=
  ⟨by decide, by decide, by decide⟩

/-- Witness for C10 on the non-calendar date `99999999`. -/
theorem eight_digit_run_shortened_witness :
    shortenDateTag ("99999999".toList ++ " report.hwp".toList)
      = some ("99999999".toList.drop 2 ++ ' ' ::
          lstripCore (dotStar
            (List.dropWhile isSepClass (" report.hwp".toList)))) :=
  eight_digit_run_shortened "99999999".toList " report.hwp".toList
    (by decide) (by decide)

/-! ### C1: disjointness of the two dedup sets -/

/-- C1 counterexample: the two sets are not disjoint at every reachable
state.  After the atomic in-flight marking (lines 783-786) and the
completion marking of `callback_wrapper` (lines 795-796) — but before the
`finally` block clears the in-flight entry (lines 801-802) — the path is
a member of both `processing_files` and `processed_files`. -/
theorem dedup_sets_not_disjoint :
    ¬ (∀ s : HState, HReachable s → DisjointState s) := by
  intro hall
  have hreach : HReachable (hrun
      [HEvent.tryMarkInFlight "C:\\watch\\a.hwp",
       HEvent.markCompleted "C:\\watch\\a.hwp"]) := ⟨_, rfl⟩
  exact absurd (hall _ hreach) (by decide)

/-- C1 (amended): the two sets can overlap, but only through two
identified steps.  Starting from any state in which the sets are
disjoint, the only critical sections that can break disjointness are
(i) recording completion of a path that is still in flight — the normal
completion handoff, which adds to `processed_files` before the `finally`
block removes from `processing_files` — and (ii) marking in flight a path
that is still inside the completed-retention window, which is possible
because the atomic re-check of lines 783-786 consults only
`processing_files`. -/
theorem dedup_overlap_sources (s : HState) (e : HEvent)
    (h1 : DisjointState s) (h2 : ¬ DisjointState (hstep s e)) :
    (∃ p, e = HEvent.markCompleted p ∧ p ∈ s.processing) ∨
      (∃ p, e = HEvent.tryMarkInFlight p ∧ p ∈ s.processed) := by
  have hd : ∀ q, q ∈ s.processing → q ∈ s.processed → False := by
    intro q hq1 hq2
    have : q ∈ s.processing ∩ s.processed := Finset.mem_inter.mpr ⟨hq1, hq2⟩
    rw [DisjointState] at h1
    rw [h1] at this
    exact absurd this (Finset.not_mem_empty q)
  cases e with
  | tryMarkInFlight p =>
    by_cases hp : p ∈ s.processing
    · exact absurd h1 (by simpa [hstep, hp] using h2)
    · right
      refine ⟨p, rfl, ?_⟩
      by_contra hpd
      apply h2
      rw [DisjointState] at h1 ⊢
      simp only [hstep, if_neg hp]
      rw [Finset.eq_empty_iff_forall_not_mem] at h1 ⊢
      intro q hq
      rw [Finset.mem_inter, Finset.mem_insert] at hq
      rcases hq.1 with hq1 | hq1
      · exact hpd (hq1 ▸ hq.2)
      · exact h1 q (Finset.mem_inter.mpr ⟨hq1, hq.2⟩)
  | markCompleted p =>
    left
    refine ⟨p, rfl, ?_⟩
    by_contra hpp
    apply h2
    rw [DisjointState]
    simp only [hstep]
    rw [Finset.eq_empty_iff_forall_not_mem]
    intro q hq
    rw [Finset.mem_inter, Finset.mem_insert] at hq
    rcases hq.2 with hq2 | hq2
    · exact hpp (hq2 ▸ hq.1)
    · exact hd q hq.1 hq2
  | clearInFlight p =>
    apply absurd h2
    simp only [not_not, DisjointState, hstep]
    rw [Finset.eq_empty_iff_forall_not_mem]
    intro q hq
    rw [Finset.mem_inter, Finset.mem_erase] at hq
    exact hd q hq.1.2 hq.2
  | evictCompleted p =>
    apply absurd h2
    simp only [not_not, DisjointState, hstep]
    rw [Finset.eq_empty_iff_forall_not_mem]
    intro q hq
    rw [Finset.mem_inter, Finset.mem_erase] at hq
    exact hd q hq.1 hq.2.2

/-- Witness for C1 (amended): a completion marking of an in-flight path
breaks disjointness, and the theorem attributes it to case (i). -/
theorem dedup_overlap_sources_witness :
    (∃ p, HEvent.markCompleted "a" = HEvent.markCompleted p ∧
        p ∈ ({"a"} : Finset String)) ∨
      (∃ p, HEvent.markCompleted "a" = HEvent.tryMarkInFlight p ∧
        p ∈ (∅ : Finset String)) :=
  dedup_overlap_sources
    { processing := {"a"}, processed := ∅ } (HEvent.markCompleted "a")
    (by decide) (by decide)

/-! ### C3: the dedup check across the lifecycle of one path -/

/-- C3: for a path that passes the unconditional filters, the dedup check
`_should_process_file` answers false from the in-flight marking until
completion, keeps answering false throughout the PROCESSED_FILE_TIMEOUT
retention window that starts at completion, and answers true again once
the eviction timer has removed the completed entry. -/
theorem dedup_window_timeline (p : String) (c : FileCtx)
    (tIn tDone t1 t2 t3 : ℚ)
    (hex : c.pathExists = true)
    (hlock : startsWithLockMarker c.filename.toList = false)
    (htmp : TEMP_EXTENSIONS.contains c.ext = false)
    (hext : c.extensions.contains c.ext = true)
    (htag : existingTagMatch c.filename.toList = false)
    (ht1a : tIn ≤ t1) (ht1b : t1 < tDone)
    (ht2a : tDone ≤ t2) (ht2b : t2 < tDone + PROCESSED_FILE_TIMEOUT)
    (ht3 : tDone + PROCESSED_FILE_TIMEOUT ≤ t3) :
    should_process_file (ledgerAt p tIn tDone t1) p c = false ∧
      should_process_file (ledgerAt p tIn tDone t2) p c = false ∧
      should_process_file (ledgerAt p tIn tDone t3) p c = true := by
  have hpos : (0 : ℚ) ≤ PROCESSED_FILE_TIMEOUT := by
    norm_num [PROCESSED_FILE_TIMEOUT]
  have hD1 : ¬ (tDone ≤ t1) := not_le.mpr ht1b
  have hE1 : ¬ (tDone + PROCESSED_FILE_TIMEOUT ≤ t1) := by
    intro hx
    linarith
  have hE2 : ¬ (tDone + PROCESSED_FILE_TIMEOUT ≤ t2) := not_le.mpr ht2b
  have hIn2 : tIn ≤ t2 := le_trans (le_trans ht1a (le_of_lt ht1b)) ht2a
  have hD3 : tDone ≤ t3 := by linarith
  have hIn3 : tIn ≤ t3 := le_trans (le_trans ht1a (le_of_lt ht1b)) hD3
  have hlock' : startsWithLockMarker c.filename.data = false := hlock
  have htag' : existingTagMatch c.filename.data = false := htag
  have htmp' : c.ext ∉ TEMP_EXTENSIONS := by simpa using htmp
  have hext' : c.ext ∈ c.extensions := by simpa using hext
  refine ⟨?_, ?_, ?_⟩
  · simp [ledgerAt, completionSchedule, List.filter_cons, List.filter_nil,
      ht1a, hD1, hE1, hrun, hstep, should_process_file, hex, hlock, htmp,
      hext, htag, hlock', htag', htmp', hext',
      Finset.not_mem_empty, Finset.mem_insert]
  · simp [ledgerAt, completionSchedule, List.filter_cons, List.filter_nil,
      hIn2, ht2a, hE2, hrun, hstep, should_process_file, hex, hlock, htmp,
      hext, htag, hlock', htag', htmp', hext',
      Finset.not_mem_empty, Finset.mem_insert, Finset.mem_erase]
  · simp [ledgerAt, completionSchedule, List.filter_cons, List.filter_nil,
      hIn3, hD3, ht3, hrun, hstep, should_process_file, hex, hlock, htmp,
      hext, htag, hlock', htag', htmp', hext',
      Finset.not_mem_empty, Finset.mem_insert, Finset.mem_erase]

/-- Witness for C3: a concrete `.hwp` candidate, marked in flight at 0,
completed at 1, queried at times 0, 1 and 31. -/
theorem dedup_window_timeline_witness :
    should_process_file (ledgerAt "C:\\w\\a.hwp" 0 1 0) "C:\\w\\a.hwp"
        { pathExists := true, filename := "a.hwp", ext := ".hwp",
          extensions := [".hwp", ".doc"] } = false ∧
      should_process_file (ledgerAt "C:\\w\\a.hwp" 0 1 1) "C:\\w\\a.hwp"
        { pathExists := true, filename := "a.hwp", ext := ".hwp",
          extensions := [".hwp", ".doc"] } = false ∧
      should_process_file (ledgerAt "C:\\w\\a.hwp" 0 1 31) "C:\\w\\a.hwp"
        { pathExists := true, filename := "a.hwp", ext := ".hwp",
          extensions := [".hwp", ".doc"] } = true :=
  dedup_window_timeline "C:\\w\\a.hwp"
    { pathExists := true, filename := "a.hwp", ext := ".hwp",
      extensions := [".hwp", ".doc"] } 0 1 0 1 31
    (by decide) (by decide) (by decide) (by decide) (by decide)
    (by norm_num) (by norm_num) (by norm_num)
    (by norm_num [PROCESSED_FILE_TIMEOUT])
    (by norm_num [PROCESSED_FILE_TIMEOUT])

/-! ### C4: effect of an open failure on the stability counter -/

/-- C4 counterexample: an open-for-read failure does not reset
`stable_count`.  After two successful same-size observations the counter
is 1; the open failure of lines 747-752 leaves it at 1 (not 0), and the
two observations before and the two after the failure together reach the
threshold, so the loop reports ready without the fallback — which is
impossible under the claim that the counter is reset to zero. -/
theorem open_failure_reset_cex :
    (waitStepSt (List.foldl waitStepSt
        { last := -1, stable := 0 } [Poll.ok 5, Poll.ok 5])
        (Poll.openFail 7)).stable ≠ 0 ∧
      wait_for_file_ready
        [Poll.ok 5, Poll.ok 5, Poll.openFail 7, Poll.ok 5, Poll.ok 5]
        false = true :=
  ⟨by decide, by decide⟩

/-- C4 (amended): a poll on which the file exists and its size is read
but the non-exclusive open fails leaves the loop state — both the
stability counter and the last observed size — completely unchanged (the
handler of lines 750-752 only sleeps and retries), so successful
same-size observations separated by an open failure still count as
consecutive. -/
theorem open_failure_preserves_wait_state (st : WaitSt) (sz : Nat) :
    waitStepSt st (Poll.openFail sz) = st := rfl

/-! ### C5: the best-effort fallback at budget expiry -/

theorem waitRun_changing (b : Bool) :
    ∀ (sizes : List Nat) (st : WaitSt),
      List.Chain' (fun a b => a ≠ b) sizes →
      (∀ s t, sizes = s :: t → (s : Int) ≠ st.last) →
      waitRun b st (sizes.map Poll.ok) = b := by
  intro sizes
  induction sizes with
  | nil =>
    intro st _ _
    rfl
  | cons s rest ih =>
    intro st hch hhd
    have hne : (s : Int) ≠ st.last := hhd s rest rfl
    simp only [List.map_cons, waitRun]
    rw [if_neg (fun hx => hne hx.1)]
    have hst : waitStepSt st (Poll.ok s)
        = { last := (s : Int), stable := 0 } := by
      simp [waitStepSt, hne]
    rw [hst]
    apply ih _ ((List.chain'_cons'.mp hch).2)
    intro s2 t2 ht
    have hs2 : s ≠ s2 := (List.chain'_cons'.mp hch).1 s2 (by rw [ht]; rfl)
    exact fun hx => hs2 (Nat.cast_inj.mp hx).symm

/-- C5: when every successfully observed size differs from the previous
one, the stability counter never reaches FILE_STABLE_COUNT, and
`_wait_for_file_ready` returns exactly the final existence check
(line 769): the candidate is still treated as ready precisely when it
exists at budget expiry, so a file whose size changes on every poll is
processed through the fallback rather than silently dropped. -/
theorem budget_expiry_fallback (sizes : List Nat)
    (hch : List.Chain' (fun a b => a ≠ b) sizes) (b : Bool) :
    wait_for_file_ready (sizes.map Poll.ok) b = b := by
  unfold wait_for_file_ready
  apply waitRun_changing b sizes _ hch
  intro s t ht hx
  simp only [] at hx
  omega

/-- Witness for C5: five polls with a fresh size each time; the result is
the existence bit at expiry, for both values of that bit. -/
theorem budget_expiry_fallback_witness :
    wait_for_file_ready (List.map Poll.ok [1, 2, 3, 4, 5]) false = false ∧
      wait_for_file_ready (List.map Poll.ok [1, 2, 3, 4, 5]) true = true :=
  ⟨budget_expiry_fallback [1, 2, 3, 4, 5]
     (by simp [List.chain'_cons, List.chain'_singleton]) false,
   budget_expiry_fallback [1, 2, 3, 4, 5]
     (by simp [List.chain'_cons, List.chain'_singleton]) true⟩

/-! ### C2: cleanup failure after a successful conversion -/

/-- A run in which the converter produced a stable output immediately but
deleting the original fails. -/
def hwpxCleanupEnv : HwpxEnv :=
  { filepath := "C:\\watch\\a.hwp"
  , converter_path := "C:\\conv\\HwpxConverter.exe"
  , filename := "a.hwp"
  , nameWoExt := "a"
  , hwpxPath := "C:\\watch\\a.hwpx"
  , srcExists := true
  , converterExists := true
  , runExc := none
  , outExistsAt := fun _ => true
  , sizeOkAt := fun _ => true
  , sizeStableAt := fun _ => true
  , removeOk := false
  , removeErr := "PermissionError" }

/-- C2 counterexample: when the external converter has produced the
output file but `os.remove` of the original fails, the claim predicts a
success outcome naming the output; `convert_hwp_to_hwpx` instead returns
the failure outcome of line 370, with the cleanup message naming the
source path. -/
theorem hwpx_cleanup_not_success_cex :
    (convert_hwp_to_hwpx hwpxCleanupEnv).1 = false ∧
      convert_hwp_to_hwpx hwpxCleanupEnv
        = (false,
          "원본 파일 삭제 실패 (C:\\watch\\a.hwp): PermissionError") :=
  ⟨by decide, by decide⟩

/-- C2 (amended): for every run that passes the guards, raises nothing,
and finds the output present with a stable size at the first wait-loop
check, a failing delete of the original makes `convert_hwp_to_hwpx`
return a FAILURE outcome — first component False, message the
cleanup-failure text naming the source path and the deletion error — not
a success naming the output. -/
theorem hwpx_cleanup_failure_returns_failure (env : HwpxEnv)
    (h1 : env.srcExists = true)
    (h2 : endsWithDotHwp env.filepath.toList = true)
    (h3 : env.converterExists = true)
    (h4 : env.runExc = none)
    (h5 : env.outExistsAt 0 = true)
    (h6 : env.sizeOkAt 0 = true)
    (h7 : env.sizeStableAt 0 = true)
    (h8 : env.removeOk = false) :
    convert_hwp_to_hwpx env
      = (false, "원본 파일 삭제 실패 (" ++ env.filepath ++ "): "
          ++ env.removeErr) := by
  unfold convert_hwp_to_hwpx
  rw [h1, h2, h3, h4]
  simp only [Bool.true_eq_false, if_false, MAX_HWPX_WAIT_RETRIES]
  show hwpxWaitLoop env (9 + 1) 0 = _
  rw [hwpxWaitLoop]
  rw [h5, h6, h7, h8]
  simp only [if_true, Bool.false_eq_true, if_false]

/-- Witness for C2 (amended) on the concrete environment. -/
theorem hwpx_cleanup_failure_returns_failure_witness :
    convert_hwp_to_hwpx hwpxCleanupEnv
      = (false, "원본 파일 삭제 실패 (" ++ hwpxCleanupEnv.filepath ++ "): "
          ++ hwpxCleanupEnv.removeErr) :=
  hwpx_cleanup_failure_returns_failure hwpxCleanupEnv rfl (by decide) rfl
    rfl rfl rfl rfl rfl

/-! ### C6: fail-fast when the availability probe failed -/

/-- C6: if the one-time probe left `hwp_available` false, the worker
drain fails every popped job fast: the reported outcomes are exactly one
"failed" stats event per job, in queue order — no job reported twice,
none dropped — and the per-job conversion (backend acquisition) is
attempted for none of them. -/
theorem backend_unavailable_fails_all_jobs
    (convertResult : PdfJob → Bool × String) (jobs : List PdfJob) :
    process_queue_drain false convertResult jobs
      = (jobs.map (fun j => (j, "failed")), []) := by
  induction jobs with
  | nil => rfl
  | cons j rest ih => simp [process_queue_drain, ih]

/-! ### C7: permanent rename errors are logged but not counted -/

/-- C7 counterexample: both permanent-per-item rename failures (source
missing, unsupported extension) are produced by the early returns of
`rename_file_with_date`; the claim predicts the failed counter is
incremented, but the rename stage of `process_file` logs a warning and
leaves both counters at delta 0 (the increment exists only in the
`except` branch, line 980). -/
theorem rename_error_not_counted_cex :
    rename_file_with_date_check false ".hwp" = some "파일이 아닙니다" ∧
      rename_file_with_date_check true ".xyz"
        = some "지원하지 않는 확장자: .xyz" ∧
      (renameStageLogsStats "report.xyz"
        (RenameResult.failed "지원하지 않는 확장자: .xyz")).2.2 = 0 ∧
      (renameStageLogsStats "report.xyz"
        (RenameResult.failed "지원하지 않는 확장자: .xyz")).1
        = [("날짜 헤더 추가 실패 (report.xyz): 지원하지 않는 확장자: .xyz",
            "warning")] :=
  ⟨by decide, by decide, by decide, by decide⟩

/-- C7 (amended): a permanent-per-item rename error whose message is not
the soft already-tagged marker is logged as a warning naming the file and
the error, and counted in NEITHER statistic: both the success and the
failed delta are zero (only an unexpected exception increments the failed
counter).  Processing of other items is unaffected: the batch result
around such an item is the per-item map of the others, unchanged. -/
theorem rename_error_logged_not_counted (filename err : String)
    (h : containsSub err dateHeaderAlreadyMsg = false) :
    renameStageLogsStats filename (RenameResult.failed err)
      = ([("날짜 헤더 추가 실패 (" ++ filename ++ "): " ++ err, "warning")],
          0, 0) ∧
      ∀ pre post : List (String × RenameResult),
        renameStageBatch (pre ++ (filename, RenameResult.failed err) :: post)
          = renameStageBatch pre
            ++ renameStageLogsStats filename (RenameResult.failed err)
              :: renameStageBatch post := by
  constructor
  · simp [renameStageLogsStats, h]
  · intro pre post
    simp [renameStageBatch]

/-- Witness for C7 (amended) at the unsupported-extension error. -/
theorem rename_error_logged_not_counted_witness :
    renameStageLogsStats "report.xyz"
        (RenameResult.failed "지원하지 않는 확장자: .xyz")
      = ([("날짜 헤더 추가 실패 (" ++ "report.xyz" ++ "): "
          ++ "지원하지 않는 확장자: .xyz", "warning")], 0, 0) :=
  (rename_error_logged_not_counted "report.xyz"
    "지원하지 않는 확장자: .xyz" (by decide)).1
